import Mathlib

/-!
Shallow embedding of the `whisper-mps` command-line utility.

Source files modelled here:
* `src/whisper_mps/cli.py` — argument record, `worker`, `main`;
* `src/whisper_mps/utils/ytdownloader.py` — `download_and_convert_to_mp3`;
* `youtube_parser.py` — `fetch_videos_with_ytdlp` (stdout parsing),
  `save_to_json`, `save_to_txt`.

External libraries (pytube, moviepy, the whisper ASR model, the filesystem,
the logging backend) are modelled as oracles in an environment record; each
call the scripts make is recorded in an effect trace, so that theorems can
speak about which calls happen, in which order, and with which arguments.
Machine-level concerns (the progress bar drawing, the logging line format)
carry no data relevant to the specification and are reflected only as
`log` effects without their message text.
-/

/-- Severity of a logging call (`logging.debug` / `info` / `warning` / `error`). -/
inductive LogLevel where
  | debug
  | info
  | warning
  | error
  deriving DecidableEq, Repr

/-- Opaque handle for a `pytube.YouTube` object. -/
structure YtObj where
  h : Nat
  deriving DecidableEq, Repr

/-- Opaque handle for a `pytube` stream object. -/
structure YtStream where
  h : Nat
  deriving DecidableEq, Repr

/-- Opaque handle for a `moviepy` `AudioFileClip` object. -/
structure Clip where
  h : Nat
  deriving DecidableEq, Repr

/-- A Python exception value (only its presence matters to the scripts). -/
inductive PyErr where
  | exn (msg : String)
  deriving DecidableEq, Repr

/-- Lowercase an ASCII letter; other characters are left unchanged.  Models
the effect of Python `str.lower` on the characters that can take part in the
`.json` suffix test in `cli.py`. -/
def lowerChar (c : Char) : Char :=
  if 'A' ≤ c ∧ c ≤ 'Z' then Char.ofNat (c.toNat + 32) else c

/-- Python `str.lower` (ASCII case mapping). -/
def pyLower (s : String) : String :=
  ⟨s.data.map lowerChar⟩

/-- Python `str.endswith`. -/
def pyEndsWith (s pat : String) : Bool :=
  pat.data.isSuffixOf s.data

/-- Python whitespace characters, as recognised by `str.strip`. -/
def isPyWs (c : Char) : Bool :=
  c = ' ' || c = '\t' || c = '\n' || c = '\r' || c = '\x0b' || c = '\x0c'

/-- Python `str.strip` on a character list: drop whitespace from both ends. -/
def pyStripChars (l : List Char) : List Char :=
  ((l.dropWhile isPyWs).reverse.dropWhile isPyWs).reverse

/-- Python `str.strip`. -/
def pyStrip (s : String) : String :=
  ⟨pyStripChars s.data⟩

/-- POSIX `os.path.join` for the two-argument uses in `ytdownloader.py`. -/
def pathJoin (a b : String) : String :=
  if b.data.head? = some '/' then b
  else if a = "" then b
  else if a.data.getLast? = some '/' then a ++ b
  else a ++ "/" ++ b

/-- Python `pathlib.Path(s).suffix`: the final dotted extension of the last
path component, with its dot; empty when the name has no usable extension. -/
def pySuffix (s : String) : String :=
  let n := (s.data.reverse.takeWhile (fun c => c ≠ '/')).reverse
  let revTail := n.reverse.takeWhile (fun c => c ≠ '.')
  if revTail.length = n.length then ""
  else if n.length - revTail.length - 1 = 0 then ""
  else if revTail.isEmpty then "" else ⟨'.' :: revTail.reverse⟩

/-- Hexadecimal digit character (lowercase), as produced by Python's
`json` encoder in `\uXXXX` escapes. -/
def hexDigit (n : Nat) : Char :=
  if n < 10 then Char.ofNat (48 + n) else Char.ofNat (87 + n)

/-- The escape sequence Python's `json` encoder (with `ensure_ascii=False`)
emits for one character: `"`, `\`, and the named control characters get
two-character escapes, other characters below `0x20` get `\u00XX`, and every
other character — non-ASCII included — is written unchanged. -/
def escapeChar (c : Char) : List Char :=
  if c = '"' then ['\\', '"']
  else if c = '\\' then ['\\', '\\']
  else if c = '\n' then ['\\', 'n']
  else if c = '\r' then ['\\', 'r']
  else if c = '\t' then ['\\', 't']
  else if c = '\x08' then ['\\', 'b']
  else if c = '\x0c' then ['\\', 'f']
  else if c.toNat < 32 then
    ['\\', 'u', '0', '0', hexDigit (c.toNat / 16), hexDigit (c.toNat % 16)]
  else [c]

/-- JSON string-body escaping, character by character. -/
def escStr : List Char → List Char
  | [] => []
  | c :: cs => escapeChar c ++ escStr cs

/-- A JSON string literal: quotes around the escaped body. -/
def jsonQuote (s : String) : List Char :=
  '"' :: (escStr s.data ++ ['"'])

/-- JSON values, the data model for what `whisper.transcribe` returns and
`json.dump` serializes.  Numbers are modelled as integers; the claims under
study do not depend on float formatting. -/
inductive Json where
  | null
  | bool (b : Bool)
  | num (n : Int)
  | str (s : String)
  | arr (items : List Json)
  | obj (members : List (String × Json))

mutual

/-- Serialization of a JSON value as Python's `json.dump(obj, fp,
ensure_ascii=False)` writes it: default separators `", "` and `": "`,
no indent, non-ASCII characters kept as-is. -/
def Json.dump : Json → List Char
  | .null => "null".data
  | .bool b => (if b then "true" else "false").data
  | .num n => (toString n).data
  | .str s => jsonQuote s
  | .arr items => '[' :: (Json.dumpList items ++ [']'])
  | .obj members => '{' :: (Json.dumpMembers members ++ ['}'])

/-- Array elements joined by `", "`. -/
def Json.dumpList : List Json → List Char
  | [] => []
  | [x] => Json.dump x
  | x :: y :: xs => Json.dump x ++ ',' :: ' ' :: Json.dumpList (y :: xs)

/-- Object members `"key": value` joined by `", "`. -/
def Json.dumpMembers : List (String × Json) → List Char
  | [] => []
  | [(k, v)] => jsonQuote k ++ ':' :: ' ' :: Json.dump v
  | (k, v) :: m :: ms =>
      jsonQuote k ++ ':' :: ' ' :: Json.dump v ++ ',' :: ' ' :: Json.dumpMembers (m :: ms)

end

/-- `Json.dump` packaged as a `String`. -/
def Json.dumps (j : Json) : String :=
  ⟨Json.dump j⟩

/-- One observable step taken by the scripts: a logging call, a file write,
or a call into one of the wrapped external libraries. -/
inductive Effect where
  | log (lvl : LogLevel)
  | fileWrite (path : String) (content : String)
  | transcribeCall (fileName : Option String) (modelName : String)
  | downloadInvoked (url : String)
  | mkdirCall (path : String)
  | downloadStream (s : YtStream) (dest : String) (result : String)
  | openAudioClip (src : String) (clip : Clip)
  | writeAudioFile (clip : Clip) (target : String) (codec : String)
  | closeAudioClip (clip : Clip)
  | removeCall (path : String)
  deriving DecidableEq, Repr

/-- Oracles for the external libraries `ytdownloader.py` calls; each can
raise (`Except.error`), modelling a Python exception at that call site. -/
structure YtEnv where
  /-- `pytube.YouTube(url)`. -/
  newYouTube : String → Except PyErr YtObj
  /-- `yt.streams.filter(only_audio=False).first()`. -/
  streamsFirst : YtObj → Except PyErr (Option YtStream)
  /-- `Path(p).mkdir(parents=True, exist_ok=True)`. -/
  mkdir : String → Except PyErr Unit
  /-- `stream.download(output_path)`; returns the downloaded file's path. -/
  download : YtStream → String → Except PyErr String
  /-- `moviepy.editor.AudioFileClip(path)`. -/
  audioFileClip : String → Except PyErr Clip
  /-- `clip.write_audiofile(target, codec="libmp3lame", ...)`. -/
  writeAudiofile : Clip → String → Except PyErr Unit
  /-- `clip.close()`. -/
  closeClip : Clip → Except PyErr Unit
  /-- `os.remove(path)`. -/
  remove : String → Except PyErr Unit

/-- `download_and_convert_to_mp3` from `utils/ytdownloader.py`: pick the
first stream of the YouTube object, download it, transcode the downloaded
file to `output_path/filename.mp4` with the `libmp3lame` audio codec, delete
the intermediate download unless it is an `.mp3`, and return the transcoded
path; any exception from a library call is caught, logged, and turns the
result into `none`.  Returns the function's result paired with its effect
trace. -/
def download_and_convert_to_mp3 (env : YtEnv) (url : String)
    (output_path : String := "output") (filename : String := "test") :
    Option String × List Effect :=
  match env.newYouTube url with
  | .error _ => (none, [.log .error])
  | .ok yt =>
  match env.streamsFirst yt with
  | .error _ => (none, [.log .error])
  | .ok none => (none, [.log .warning])
  | .ok (some audio_stream) =>
  match env.mkdir output_path with
  | .error _ => (none, [.log .error])
  | .ok _ =>
  let mp3_file_path := pathJoin output_path (filename ++ ".mp4")
  let t0 : List Effect := [.mkdirCall output_path, .log .info]
  match env.download audio_stream output_path with
  | .error _ => (none, t0 ++ [.log .error])
  | .ok downloaded_file_path =>
  let t1 := t0 ++ [Effect.downloadStream audio_stream output_path downloaded_file_path]
  match env.audioFileClip downloaded_file_path with
  | .error _ => (none, t1 ++ [.log .error])
  | .ok audio_clip =>
  let t2 := t1 ++ [Effect.openAudioClip downloaded_file_path audio_clip]
  match env.writeAudiofile audio_clip mp3_file_path with
  | .error _ => (none, t2 ++ [.log .error])
  | .ok _ =>
  let t3 := t2 ++ [Effect.writeAudioFile audio_clip mp3_file_path "libmp3lame"]
  match env.closeClip audio_clip with
  | .error _ => (none, t3 ++ [.log .error])
  | .ok _ =>
  let t4 := t3 ++ [Effect.closeAudioClip audio_clip]
  if pySuffix downloaded_file_path ≠ ".mp3" then
    match env.remove downloaded_file_path with
    | .error _ => (none, t4 ++ [.log .error])
    | .ok _ => (some mp3_file_path, t4 ++ [.removeCall downloaded_file_path, .log .info])
  else
    (some mp3_file_path, t4 ++ [.log .info])

/-- Environment for `cli.py`: the downloader's oracles plus the ASR call. -/
structure Env where
  yt : YtEnv
  /-- Modelled from the spec: `whisper.transcribe`, the call into the
  pre-existing automatic-speech-recognition model (the `whisper` module is
  not part of the sources under study).  It is an opaque function from the
  audio file name and model size to the transcript value. -/
  transcribe : Option String → String → Json

/-- The parsed argument record of `cli.py`, with the `argparse` defaults. -/
structure Args where
  file_name : Option String := none
  model_name : String := "tiny"
  youtube_url : Option String := none
  output_file_name : String := "output.json"
  log_level : String := "INFO"

/-- The output-file normalisation inside `main`:
`if not output_file_name.lower().endswith('.json'): output_file_name += '.json'`. -/
def outputJsonName (n : String) : String :=
  if pyEndsWith (pyLower n) ".json" then n else n ++ ".json"

/-- `worker` from `cli.py`: call `whisper.transcribe` on the file and model,
log the result at debug level, write its JSON serialization
(`json.dump(text, fp, ensure_ascii=False)`) to the output file, and log a
completion message.  The progress-bar context manager draws UI only and
contributes no effect. -/
def worker (env : Env) (file_name : Option String)
    (model_name output_file_name : String) : List Effect :=
  let text := env.transcribe file_name model_name
  [Effect.transcribeCall file_name model_name,
   Effect.log .debug,
   Effect.fileWrite output_file_name (Json.dumps text),
   Effect.log .info]

/-- `main` from `cli.py`: normalise the output file name; with
`--youtube-url` present, log, run the downloader and hand its result to
`worker`; otherwise require `--file-name` (logging an error and returning
early when it is absent) and hand it to `worker`.  The Python function
returns `None` on every path, so only the effect trace is modelled.
(Named `cliMain` because Lean reserves the name `main` for executables.) -/
def cliMain (env : Env) (args : Args) : List Effect :=
  let output_file_name := outputJsonName args.output_file_name
  match args.youtube_url with
  | some url =>
      let dl := download_and_convert_to_mp3 env.yt url
      Effect.log .info :: Effect.downloadInvoked url ::
        (dl.2 ++ worker env dl.1 args.model_name output_file_name)
  | none =>
      match args.file_name with
      | none => [Effect.log .error]
      | some f => worker env (some f) args.model_name output_file_name

/-- A video record built by `youtube_parser.py`: the dictionary
`{'url': ..., 'title': ...}`. -/
structure Video where
  url : String
  title : String
  deriving DecidableEq, Repr

/-- Python `text.split('\n')`: the lines of a character list, splitting at
every newline; the empty text has one empty line. -/
def splitNl : List Char → List (List Char)
  | [] => [[]]
  | c :: cs =>
    match splitNl cs with
    | [] => [[]]
    | line :: rest => if c = '\n' then [] :: line :: rest else (c :: line) :: rest

/-- One line of yt-dlp output, turned into a video record exactly when it
contains `'|'`: `video_id, title = line.split('|', 1)` and the entry is
`{'url': 'https://www.youtube.com/watch?v=' + video_id,
'title': title.strip()}`. -/
def lineEntry (line : List Char) : Option Video :=
  match line.dropWhile (fun c => c ≠ '|') with
  | '|' :: after =>
      some { url := "https://www.youtube.com/watch?v=" ++ ⟨line.takeWhile (fun c => c ≠ '|')⟩,
             title := ⟨pyStripChars after⟩ }
  | _ => none

/-- The stdout-parsing step of `fetch_videos_with_ytdlp` in
`youtube_parser.py` (the subprocess invocation itself is outside the model;
its captured stdout is the input):
`for line in result.stdout.strip().split('\n'): if '|' in line: ...`. -/
def fetch_videos_with_ytdlp (stdout : String) : List Video :=
  (splitNl (pyStripChars stdout.data)).filterMap lineEntry

/-- The claimed stdout parse, written from the specification's words: one
entry per line of the stdout that contains `'|'`, in line order, with the
url taken from the text before the first `'|'` and the title from the
whitespace-stripped text after it.  (No whitespace-stripping of the whole
stdout is mentioned.) -/
def claimedFetchVideos (stdout : String) : List Video :=
  (splitNl stdout.data).filterMap lineEntry

/-- Characters of the object `{"url": ..., "title": ...}` as
`json.dumps(..., ensure_ascii=False, indent=2)` lays it out inside the
top-level array (keys indented four spaces, closing brace two). -/
def videoObjChars (v : Video) : List Char :=
  ['{', '\n', ' ', ' ', ' ', ' '] ++ jsonQuote "url" ++ [':', ' '] ++
    jsonQuote v.url ++
    [',', '\n', ' ', ' ', ' ', ' '] ++ jsonQuote "title" ++ [':', ' '] ++
    jsonQuote v.title ++
    ['\n', ' ', ' ', '}']

/-- The array items joined by `",\n  "`. -/
def videoItemsChars : List Video → List Char
  | [] => []
  | [v] => videoObjChars v
  | v :: w :: vs => videoObjChars v ++ [',', '\n', ' ', ' '] ++ videoItemsChars (w :: vs)

/-- The file content `save_to_json` writes:
`json.dumps(videos, ensure_ascii=False, indent=2)`. -/
def save_to_json (videos : List Video) : String :=
  match videos with
  | [] => "[]"
  | v :: vs => ⟨['[', '\n', ' ', ' '] ++ videoItemsChars (v :: vs) ++ ['\n', ']']⟩

/-- JSON whitespace. -/
def isJsonWs (c : Char) : Bool :=
  c = ' ' || c = '\t' || c = '\n' || c = '\r'

/-- Skip JSON whitespace. -/
def skipWs (l : List Char) : List Char :=
  l.dropWhile isJsonWs

/-- Value of a hexadecimal digit character, as a JSON decoder reads it. -/
def hexVal (c : Char) : Option Nat :=
  if '0' ≤ c ∧ c ≤ '9' then some (c.toNat - 48)
  else if 'a' ≤ c ∧ c ≤ 'f' then some (c.toNat - 87)
  else if 'A' ≤ c ∧ c ≤ 'F' then some (c.toNat - 55)
  else none

/-- The character denoted by a single-letter JSON escape sequence. -/
def unescapeChar (e : Char) : Option Char :=
  if e = '"' then some '"'
  else if e = '\\' then some '\\'
  else if e = '/' then some '/'
  else if e = 'n' then some '\n'
  else if e = 't' then some '\t'
  else if e = 'r' then some '\r'
  else if e = 'b' then some '\x08'
  else if e = 'f' then some '\x0c'
  else none

/-- Decode a JSON string body (the part after the opening quote) as a
standard JSON decoder does: literal characters, single-letter escapes and
`\uXXXX` escapes, up to the closing quote; returns the decoded characters
and the rest of the input.  The fuel argument bounds the number of decoded
characters; each decoded character consumes at least one input character,
so the input length is always enough fuel. -/
def parseStrBodyF : Nat → List Char → Option (List Char × List Char)
  | 0, _ => none
  | fuel + 1, l =>
    match l with
    | [] => none
    | c :: rest =>
      if c = '"' then some ([], rest)
      else if c = '\\' then
        match rest with
        | [] => none
        | e :: l2 =>
          if e = 'u' then
            match l2 with
            | h1 :: h2 :: h3 :: h4 :: l3 =>
              match hexVal h1, hexVal h2, hexVal h3, hexVal h4 with
              | some a, some b, some x, some d =>
                  (parseStrBodyF fuel l3).map
                    (fun p => (Char.ofNat (((a * 16 + b) * 16 + x) * 16 + d) :: p.1, p.2))
              | _, _, _, _ => none
            | _ => none
          else
            match unescapeChar e with
            | some u => (parseStrBodyF fuel l2).map (fun p => (u :: p.1, p.2))
            | none => none
      else (parseStrBodyF fuel rest).map (fun p => (c :: p.1, p.2))

/-- `parseStrBodyF` supplied with enough fuel for its whole input. -/
def parseStrBody (l : List Char) : Option (List Char × List Char) :=
  parseStrBodyF (l.length + 1) l

/-- Require the next non-whitespace character to be `c`; return what
follows it. -/
def expectTok (c : Char) (l : List Char) : Option (List Char) :=
  match skipWs l with
  | d :: r => if d = c then some r else none
  | [] => none

/-- Require a JSON string literal (after optional whitespace); return its
decoded body and what follows the closing quote. -/
def expectStr (l : List Char) : Option (List Char × List Char) :=
  match skipWs l with
  | '"' :: r => parseStrBody r
  | _ => none

/-- Decode one `{"url": ..., "title": ...}` object, tolerating JSON
whitespace between tokens, as a standard decoder specialised to the schema
`save_to_json` writes. -/
def parseVideoObj (l : List Char) : Option (Video × List Char) :=
  (expectTok '{' l).bind fun l1 =>
  (expectStr l1).bind fun p1 =>
  if p1.1 = ['u', 'r', 'l'] then
    (expectTok ':' p1.2).bind fun l3 =>
    (expectStr l3).bind fun pu =>
    (expectTok ',' pu.2).bind fun l5 =>
    (expectStr l5).bind fun p2 =>
    if p2.1 = ['t', 'i', 't', 'l', 'e'] then
      (expectTok ':' p2.2).bind fun l7 =>
      (expectStr l7).bind fun pt =>
      (expectTok '}' pt.2).map fun l9 => (⟨⟨pu.1⟩, ⟨pt.1⟩⟩, l9)
    else none
  else none

/-- Decode the comma-separated objects of a non-empty JSON array, up to and
including the closing bracket.  `fuel` bounds the number of items; each item
consumes input, so the input length is always enough fuel. -/
def parseVideoItems : Nat → List Char → Option (List Video × List Char)
  | 0, _ => none
  | fuel + 1, l =>
    match parseVideoObj l with
    | some (v, r) =>
      match skipWs r with
      | ',' :: r2 =>
          (parseVideoItems fuel r2).map (fun p => (v :: p.1, p.2))
      | ']' :: r2 => some ([v], r2)
      | _ => none
    | none => none

/-- Decode a JSON array of `{"url", "title"}` objects. -/
def parseVideoArray (l : List Char) : Option (List Video × List Char) :=
  match skipWs l with
  | '[' :: r =>
    match skipWs r with
    | ']' :: r2 => some ([], r2)
    | r1 => parseVideoItems (r1.length + 1) r1
  | _ => none

/-- A standard JSON decoder applied to a whole document of the
array-of-video-objects schema: the array with nothing but whitespace after
it. -/
def decodeVideos (s : String) : Option (List Video) :=
  match parseVideoArray s.data with
  | some (vs, rest) => if skipWs rest = [] then some vs else none
  | none => none

/-- The line list built by the loop in `save_to_txt`: for each video its
title, its url, then an empty line. -/
def txtLines : List Video → List String
  | [] => []
  | v :: vs => v.title :: v.url :: "" :: txtLines vs

/-- The file content `save_to_txt` writes: `'\n'.join(lines)`. -/
def save_to_txt (videos : List Video) : String :=
  String.intercalate "\n" (txtLines videos)

/-- The claimed text format, written from the specification's words: for
each video in order the lines title, url, empty; all joined by newline
characters. -/
def claimedTxt (videos : List Video) : String :=
  String.intercalate "\n" (videos.map (fun v => [v.title, v.url, ""])).flatten

/-- A concrete environment in which every library call succeeds. -/
def okYtEnv : YtEnv where
  newYouTube _ := .ok ⟨0⟩
  streamsFirst _ := .ok (some ⟨1⟩)
  mkdir _ := .ok ()
  download _ _ := .ok "output/Some Video.mp4"
  audioFileClip _ := .ok ⟨2⟩
  writeAudiofile _ _ := .ok ()
  closeClip _ := .ok ()
  remove _ := .ok ()

/-- A concrete environment in which every library call raises. -/
def failYtEnv : YtEnv where
  newYouTube _ := .error (.exn "HTTP Error 400")
  streamsFirst _ := .error (.exn "boom")
  mkdir _ := .error (.exn "boom")
  download _ _ := .error (.exn "boom")
  audioFileClip _ := .error (.exn "boom")
  writeAudiofile _ _ := .error (.exn "boom")
  closeClip _ := .error (.exn "boom")
  remove _ := .error (.exn "boom")

/-- A concrete CLI environment over `okYtEnv` with a fixed transcript. -/
def okEnv : Env where
  yt := okYtEnv
  transcribe _ _ := Json.obj [("text", Json.str "hello")]

/-- A concrete CLI environment over `failYtEnv`. -/
def failEnv : Env where
  yt := failYtEnv
  transcribe _ _ := Json.null

theorem hexVal_hexDigit (n : Nat) (h : n < 16) : hexVal (hexDigit n) = some n := by
  interval_cases n <;> decide

theorem escapeChar_length_pos (c : Char) : 1 ≤ (escapeChar c).length := by
  unfold escapeChar
  split_ifs <;> simp

theorem length_le_escStr (s : List Char) : s.length ≤ (escStr s).length := by
  induction s with
  | nil => simp [escStr]
  | cons c cs ih =>
      have := escapeChar_length_pos c
      simp only [escStr, List.length_append, List.length_cons]
      omega

theorem parseStrBodyF_escStr (s : List Char) :
    ∀ (f : Nat) (rest : List Char), s.length < f →
      parseStrBodyF f (escStr s ++ '"' :: rest) = some (s, rest) := by
  induction s with
  | nil =>
      intro f rest h
      obtain ⟨f', rfl⟩ : ∃ f', f = f' + 1 := ⟨f - 1, by omega⟩
      simp [escStr, parseStrBodyF]
  | cons c cs ih =>
      intro f rest h
      obtain ⟨f', rfl⟩ : ∃ f', f = f' + 1 := ⟨f - 1, by omega⟩
      have hcs : cs.length < f' := by simp at h; omega
      show parseStrBodyF (f' + 1) ((escapeChar c ++ escStr cs) ++ '"' :: rest) = _
      rw [List.append_assoc]
      unfold escapeChar
      split_ifs with h1 h2 h3 h4 h5 h6 h7 h8
      · subst h1; simp [parseStrBodyF, unescapeChar, ih f' rest hcs]
      · subst h2; simp [parseStrBodyF, unescapeChar, ih f' rest hcs]
      · subst h3; simp [parseStrBodyF, unescapeChar, ih f' rest hcs]
      · subst h4; simp [parseStrBodyF, unescapeChar, ih f' rest hcs]
      · subst h5; simp [parseStrBodyF, unescapeChar, ih f' rest hcs]
      · subst h6; simp [parseStrBodyF, unescapeChar, ih f' rest hcs]
      · subst h7; simp [parseStrBodyF, unescapeChar, ih f' rest hcs]
      · have d1 : c.toNat / 16 < 16 := by omega
        have d2 : c.toNat % 16 < 16 := by omega
        have e0 : hexVal '0' = some 0 := by decide
        have heq : Char.ofNat (c.toNat / 16 * 16 + c.toNat % 16) = c := by
          rw [show c.toNat / 16 * 16 + c.toNat % 16 = c.toNat from by omega]
          exact Char.ofNat_toNat c
        simp [parseStrBodyF, e0, hexVal_hexDigit _ d1, hexVal_hexDigit _ d2,
          ih f' rest hcs, heq]
      · simp [parseStrBodyF, h1, h2, ih f' rest hcs]

theorem parseStrBody_escStr (s rest : List Char) :
    parseStrBody (escStr s ++ '"' :: rest) = some (s, rest) := by
  apply parseStrBodyF_escStr
  have := length_le_escStr s
  simp only [List.length_append, List.length_cons]
  omega

theorem skipWs_not_ws (c : Char) (l : List Char) (h : isJsonWs c = false) :
    skipWs (c :: l) = c :: l := by
  simp [skipWs, List.dropWhile_cons, h]

theorem skipWs_ws (c : Char) (l : List Char) (h : isJsonWs c = true) :
    skipWs (c :: l) = skipWs l := by
  simp [skipWs, List.dropWhile_cons, h]

theorem expectTok_ws (c d : Char) (l : List Char) (h : isJsonWs d = true) :
    expectTok c (d :: l) = expectTok c l := by
  rw [expectTok, expectTok, skipWs_ws _ _ h]

theorem expectTok_hit (c : Char) (l : List Char) (h : isJsonWs c = false) :
    expectTok c (c :: l) = some l := by
  rw [expectTok, skipWs_not_ws _ _ h]
  simp

theorem expectStr_ws (d : Char) (l : List Char) (h : isJsonWs d = true) :
    expectStr (d :: l) = expectStr l := by
  rw [expectStr, expectStr, skipWs_ws _ _ h]

theorem expectStr_escStr (s tail : List Char) :
    expectStr ('"' :: (escStr s ++ '"' :: tail)) = some (s, tail) := by
  rw [expectStr, skipWs_not_ws _ _ (by decide)]
  exact parseStrBody_escStr s tail

theorem url_data : "url".data = ['u', 'r', 'l'] := rfl

theorem title_data : "title".data = ['t', 'i', 't', 'l', 'e'] := rfl

theorem parseVideoObj_chars (v : Video) (rest : List Char) :
    parseVideoObj (videoObjChars v ++ rest) = some (v, rest) := by
  simp only [videoObjChars, jsonQuote, List.append_assoc, List.cons_append,
    List.nil_append]
  rw [parseVideoObj]
  simp [expectTok_ws, expectTok_hit, expectStr_ws, expectStr_escStr, isJsonWs,
    url_data, title_data]

theorem parseVideoObj_ws (d : Char) (l : List Char) (h : isJsonWs d = true) :
    parseVideoObj (d :: l) = parseVideoObj l := by
  rw [parseVideoObj, parseVideoObj, expectTok_ws _ _ _ h]

theorem parseVideoItems_ws (f : Nat) (d : Char) (l : List Char) (h : isJsonWs d = true) :
    parseVideoItems f (d :: l) = parseVideoItems f l := by
  cases f with
  | zero => rfl
  | succ f' => simp [parseVideoItems, parseVideoObj_ws _ _ h]

theorem videoItemsChars_head (v : Video) (vs : List Video) :
    ∃ t, videoItemsChars (v :: vs) = '{' :: t := by
  cases vs <;> exact ⟨_, rfl⟩

theorem length_le_videoItemsChars (vs : List Video) :
    ∀ v : Video, vs.length ≤ (videoItemsChars (v :: vs)).length := by
  induction vs with
  | nil => simp
  | cons w ws ih =>
      intro v
      have := ih w
      simp only [videoItemsChars, List.length_append, List.length_cons] at *
      omega

theorem parseVideoItems_chars (vs : List Video) :
    ∀ (v : Video) (f : Nat) (rest : List Char), vs.length < f →
      parseVideoItems f (videoItemsChars (v :: vs) ++ '\n' :: ']' :: rest) =
        some (v :: vs, rest) := by
  induction vs with
  | nil =>
      intro v f rest h
      obtain ⟨f', rfl⟩ : ∃ f', f = f' + 1 := ⟨f - 1, by omega⟩
      simp [videoItemsChars, parseVideoItems, parseVideoObj_chars,
        skipWs_ws _ _ (by decide : isJsonWs '\n' = true),
        skipWs_not_ws _ _ (by decide : isJsonWs ']' = false)]
  | cons w ws ih =>
      intro v f rest h
      obtain ⟨f', rfl⟩ : ∃ f', f = f' + 1 := ⟨f - 1, by omega⟩
      have h2 : ws.length < f' := by simp at h; omega
      have step := ih w f' rest h2
      simp only [videoItemsChars, List.append_assoc, List.cons_append,
        List.nil_append]
      simp [parseVideoItems, parseVideoObj_chars,
        skipWs_not_ws _ _ (by decide : isJsonWs ',' = false),
        parseVideoItems_ws, isJsonWs, step]

/-- C7: decoding the file content written by `save_to_json` with a
standard JSON decoder yields the original video list unchanged. -/
theorem save_to_json_roundtrip (videos : List Video) :
    decodeVideos (save_to_json videos) = some videos := by
  cases videos with
  | nil => rfl
  | cons v vs =>
      obtain ⟨t, ht⟩ := videoItemsChars_head v vs
      have hlen : vs.length < (videoItemsChars (v :: vs) ++ ['\n', ']']).length + 1 := by
        have := length_le_videoItemsChars vs v
        simp only [List.length_append]
        omega
      have hitems := parseVideoItems_chars vs v
        ((videoItemsChars (v :: vs) ++ ['\n', ']']).length + 1) [] hlen
      rw [save_to_json, decodeVideos]
      show (match parseVideoArray ('[' :: '\n' :: ' ' :: ' ' ::
          (videoItemsChars (v :: vs) ++ ['\n', ']'])) with
        | some (vs, rest) => if skipWs rest = [] then some vs else none
        | none => none) = some (v :: vs)
      rw [parseVideoArray, skipWs_not_ws _ _ (by decide : isJsonWs '[' = false)]
      simp only [skipWs_ws _ _ (by decide : isJsonWs '\n' = true),
        skipWs_ws _ _ (by decide : isJsonWs ' ' = true)]
      rw [ht]
      simp only [List.cons_append]
      rw [skipWs_not_ws _ _ (by decide : isJsonWs '{' = false)]
      rw [← List.cons_append, ← ht]
      rw [ht]
      simp only [List.cons_append]
      show (match parseVideoItems (('{' :: (t ++ ['\n', ']'])).length + 1)
          ('{' :: (t ++ ['\n', ']'])) with
        | some (vs, rest) => if skipWs rest = [] then some vs else none
        | none => none) = some (v :: vs)
      rw [← List.cons_append, ← ht, hitems]
      rfl

/-- C1: For every invocation that reaches the transcription step, `worker`
writes to the output file exactly the JSON serialization (non-ASCII
preserved) of the value returned by the ASR call on the given file and
model: a `fileWrite` effect occurs in `worker`'s trace precisely for the
output file name and that serialized transcript. -/
theorem worker_writes_transcription (env : Env) (file_name : Option String)
    (model_name output_file_name : String) (p c : String) :
    Effect.fileWrite p c ∈ worker env file_name model_name output_file_name ↔
      p = output_file_name ∧ c = Json.dumps (env.transcribe file_name model_name) := by
  simp [worker]

/-- Witness for C1 at a concrete environment, file and output name. -/
theorem worker_writes_transcription_witness :
    Effect.fileWrite "output.json" (Json.dumps (okEnv.transcribe (some "a.mp3") "tiny")) ∈
      worker okEnv (some "a.mp3") "tiny" "output.json" :=
  (worker_writes_transcription okEnv (some "a.mp3") "tiny" "output.json" _ _).mpr ⟨rfl, rfl⟩

/-- C2: `main` invokes the YouTube downloader exactly when `--youtube-url`
is provided; with it absent the given `--file-name` is forwarded unchanged
to the transcription step, and with it present the downloader's returned
path (not `--file-name`) is forwarded. -/
theorem main_routes_on_youtube_url (env : Env) (args : Args) :
    (∀ u, args.youtube_url = some u →
      Effect.downloadInvoked u ∈ cliMain env args ∧
      Effect.transcribeCall (download_and_convert_to_mp3 env.yt u).1 args.model_name ∈
        cliMain env args) ∧
    (args.youtube_url = none →
      (∀ u, Effect.downloadInvoked u ∉ cliMain env args) ∧
      (∀ f, args.file_name = some f →
        Effect.transcribeCall (some f) args.model_name ∈ cliMain env args)) := by
  constructor
  · intro u hu
    constructor
    · simp [cliMain, hu]
    · simp [cliMain, hu, worker]
  · intro hn
    constructor
    · intro u
      cases hf : args.file_name <;> simp [cliMain, hn, hf, worker]
    · intro f hf
      simp [cliMain, hn, hf, worker]

/-- Witness for C2 at a concrete argument record with a file name and no
YouTube URL. -/
theorem main_routes_on_youtube_url_witness :
    Effect.transcribeCall (some "a.mp3") "tiny" ∈
      cliMain okEnv { file_name := some "a.mp3" } :=
  ((main_routes_on_youtube_url okEnv { file_name := some "a.mp3" }).2 rfl).2 "a.mp3" rfl

/-- C5: When neither `--youtube-url` nor `--file-name` is provided, `main`
only logs an error (and returns `None`, as the Python function does on
every path): no transcription call and no file write occur. -/
theorem main_requires_some_input (env : Env) (args : Args)
    (h1 : args.youtube_url = none) (h2 : args.file_name = none) :
    cliMain env args = [Effect.log .error] ∧
    Effect.log .error ∈ cliMain env args ∧
    (∀ f m, Effect.transcribeCall f m ∉ cliMain env args) ∧
    (∀ p c, Effect.fileWrite p c ∉ cliMain env args) := by
  have he : cliMain env args = [Effect.log .error] := by simp [cliMain, h1, h2]
  refine ⟨he, by simp [he], ?_, ?_⟩ <;> intro a b <;> simp [he]

/-- Witness for C5 at the default argument record. -/
theorem main_requires_some_input_witness :
    cliMain failEnv {} = [Effect.log .error] ∧
    Effect.log .error ∈ cliMain failEnv {} ∧
    (∀ f m, Effect.transcribeCall f m ∉ cliMain failEnv {}) ∧
    (∀ p c, Effect.fileWrite p c ∉ cliMain failEnv {}) :=
  main_requires_some_input failEnv {} rfl rfl

/-- C10: With `--youtube-url` provided and the downloader returning `None`,
`main` does not abort: the transcription call is still attempted, with
`None` as the file name. -/
theorem main_continues_on_failed_download (env : Env) (args : Args) (u : String)
    (hu : args.youtube_url = some u)
    (hdl : (download_and_convert_to_mp3 env.yt u).1 = none) :
    Effect.transcribeCall none args.model_name ∈ cliMain env args := by
  simp [cliMain, hu, worker, hdl]

/-- Witness for C10 with an environment whose downloader fails. -/
theorem main_continues_on_failed_download_witness :
    Effect.transcribeCall none "tiny" ∈
      cliMain failEnv { youtube_url := some "https://youtu.be/x" } :=
  main_continues_on_failed_download failEnv { youtube_url := some "https://youtu.be/x" }
    "https://youtu.be/x" rfl rfl

/-- C8: `save_to_txt` writes, for each video in order, its title on one
line, its url on the next, then one empty line, all joined by newline
characters. -/
theorem save_to_txt_layout (videos : List Video) :
    save_to_txt videos = claimedTxt videos := by
  unfold save_to_txt claimedTxt
  congr 1
  induction videos with
  | nil => rfl
  | cons v vs ih => simp [txtLines, ih]

/-- C6, counterexample: on the stdout text " abc|Title" the code does not
return the entry predicted from the raw line (url suffix " abc"), because
it strips the whole stdout first (url suffix "abc"). -/
theorem fetch_videos_claim_cex :
    fetch_videos_with_ytdlp " abc|Title" ≠ claimedFetchVideos " abc|Title" := by
  decide

/-- C6, amended: the per-line description holds for the lines of the
whitespace-stripped stdout — one entry per line containing a bar, in line
order, with the url built from the text before the first bar and the title
the stripped text after it — and empty stdout yields the empty list. -/
theorem fetch_videos_amended :
    (∀ s : String, fetch_videos_with_ytdlp s = claimedFetchVideos (pyStrip s)) ∧
    fetch_videos_with_ytdlp "" = [] :=
  ⟨fun _ => rfl, rfl⟩

theorem pyLower_append (a b : String) : pyLower (a ++ b) = pyLower a ++ pyLower b := by
  show String.mk ((a.data ++ b.data).map lowerChar) = String.mk (a.data.map lowerChar ++ b.data.map lowerChar)
  rw [List.map_append]

theorem pyEndsWith_append (s t : String) : pyEndsWith (s ++ t) t = true := by
  show t.data.isSuffixOf (s.data ++ t.data) = true
  rw [List.isSuffixOf_iff_suffix]
  exact List.suffix_append _ _

theorem pyLower_json : pyLower ".json" = ".json" := by decide

/-- C9: the file path the CLI writes always ends with ".json" up to ASCII
case: a name already ending with ".json" case-insensitively (such as
"out.JSON") is kept unchanged, any other name gets ".json" appended. -/
theorem output_file_name_gets_json_suffix (n : String) :
    pyEndsWith (pyLower (outputJsonName n)) ".json" = true ∧
    (pyEndsWith (pyLower n) ".json" = true → outputJsonName n = n) ∧
    (pyEndsWith (pyLower n) ".json" = false → outputJsonName n = n ++ ".json") := by
  by_cases h : pyEndsWith (pyLower n) ".json"
  · exact ⟨by simp [outputJsonName, h],
      fun _ => by simp [outputJsonName, h],
      fun hf => by simp [h] at hf⟩
  · have hb : pyEndsWith (pyLower n) ".json" = false := by simpa using h
    refine ⟨?_, fun ht => by simp [ht] at hb, fun _ => by simp [outputJsonName, hb]⟩
    rw [show outputJsonName n = n ++ ".json" from by simp [outputJsonName, hb]]
    rw [pyLower_append, pyLower_json]
    exact pyEndsWith_append _ _

/-- Witness for C9 at the name "out.JSON". -/
theorem output_file_name_gets_json_suffix_witness :
    pyEndsWith (pyLower (outputJsonName "out.JSON")) ".json" = true ∧
    outputJsonName "out.JSON" = "out.JSON" :=
  ⟨(output_file_name_gets_json_suffix "out.JSON").1,
   (output_file_name_gets_json_suffix "out.JSON").2.1 (by decide)⟩

/-- C3: whenever `download_and_convert_to_mp3` returns a path, that path is
`output_path/filename.mp4`, a stream of the YouTube media was obtained and
downloaded, the downloaded file was opened and transcoded with the
`libmp3lame` audio codec, and the returned path is exactly the transcode
target. -/
theorem download_mp3_success_shape (env : YtEnv) (url output_path filename p : String)
    (hp : (download_and_convert_to_mp3 env url output_path filename).1 = some p) :
    p = pathJoin output_path (filename ++ ".mp4") ∧
    ∃ yt s d c,
      env.newYouTube url = .ok yt ∧
      env.streamsFirst yt = .ok (some s) ∧
      Effect.downloadStream s output_path d ∈
        (download_and_convert_to_mp3 env url output_path filename).2 ∧
      Effect.openAudioClip d c ∈
        (download_and_convert_to_mp3 env url output_path filename).2 ∧
      Effect.writeAudioFile c p "libmp3lame" ∈
        (download_and_convert_to_mp3 env url output_path filename).2 := by
  cases h1 : env.newYouTube url with
  | error e => simp [download_and_convert_to_mp3, h1] at hp
  | ok yt =>
  cases h2 : env.streamsFirst yt with
  | error e => simp [download_and_convert_to_mp3, h1, h2] at hp
  | ok os =>
  cases os with
  | none => simp [download_and_convert_to_mp3, h1, h2] at hp
  | some s =>
  cases h3 : env.mkdir output_path with
  | error e => simp [download_and_convert_to_mp3, h1, h2, h3] at hp
  | ok u3 =>
  cases h4 : env.download s output_path with
  | error e => simp [download_and_convert_to_mp3, h1, h2, h3, h4] at hp
  | ok d =>
  cases h5 : env.audioFileClip d with
  | error e => simp [download_and_convert_to_mp3, h1, h2, h3, h4, h5] at hp
  | ok c =>
  cases h6 : env.writeAudiofile c (pathJoin output_path (filename ++ ".mp4")) with
  | error e => simp [download_and_convert_to_mp3, h1, h2, h3, h4, h5, h6] at hp
  | ok u6 =>
  cases h7 : env.closeClip c with
  | error e => simp [download_and_convert_to_mp3, h1, h2, h3, h4, h5, h6, h7] at hp
  | ok u7 =>
  by_cases h8 : pySuffix d = ".mp3"
  · have hres : download_and_convert_to_mp3 env url output_path filename =
        (some (pathJoin output_path (filename ++ ".mp4")),
         [.mkdirCall output_path, .log .info,
          .downloadStream s output_path d, .openAudioClip d c,
          .writeAudioFile c (pathJoin output_path (filename ++ ".mp4")) "libmp3lame",
          .closeAudioClip c, .log .info]) := by
      simp [download_and_convert_to_mp3, h1, h2, h3, h4, h5, h6, h7, h8]
    rw [hres] at hp
    simp at hp
    subst hp
    exact ⟨rfl, yt, s, d, c, rfl, h2, by simp [hres]⟩
  · cases h9 : env.remove d with
    | error e =>
        simp [download_and_convert_to_mp3, h1, h2, h3, h4, h5, h6, h7, h8, h9] at hp
    | ok u9 =>
        have hres : download_and_convert_to_mp3 env url output_path filename =
            (some (pathJoin output_path (filename ++ ".mp4")),
             [.mkdirCall output_path, .log .info,
              .downloadStream s output_path d, .openAudioClip d c,
              .writeAudioFile c (pathJoin output_path (filename ++ ".mp4")) "libmp3lame",
              .closeAudioClip c, .removeCall d, .log .info]) := by
          simp [download_and_convert_to_mp3, h1, h2, h3, h4, h5, h6, h7, h8, h9]
        rw [hres] at hp
        simp at hp
        subst hp
        exact ⟨rfl, yt, s, d, c, rfl, h2, by simp [hres]⟩

/-- Witness for C3 at a concrete succeeding environment. -/
theorem download_mp3_success_shape_witness :
    "output/test.mp4" = pathJoin "output" ("test" ++ ".mp4") ∧
    ∃ yt s d c,
      okYtEnv.newYouTube "https://youtu.be/x" = .ok yt ∧
      okYtEnv.streamsFirst yt = .ok (some s) ∧
      Effect.downloadStream s "output" d ∈
        (download_and_convert_to_mp3 okYtEnv "https://youtu.be/x" "output" "test").2 ∧
      Effect.openAudioClip d c ∈
        (download_and_convert_to_mp3 okYtEnv "https://youtu.be/x" "output" "test").2 ∧
      Effect.writeAudioFile c "output/test.mp4" "libmp3lame" ∈
        (download_and_convert_to_mp3 okYtEnv "https://youtu.be/x" "output" "test").2 :=
  download_mp3_success_shape okYtEnv "https://youtu.be/x" "output" "test"
    "output/test.mp4" (by decide)

/-- C4: an exception raised by any of the library calls inside
`download_and_convert_to_mp3` — construction of the YouTube object, stream
listing, directory creation, download, clip opening, transcoding, clip
closing, or file removal — is caught: the function returns `none` and logs
an error, and (as its total result type shows) nothing propagates. -/
theorem download_mp3_catches_exceptions (env : YtEnv) (url output_path filename : String) :
    (∀ e, env.newYouTube url = .error e →
      (download_and_convert_to_mp3 env url output_path filename).1 = none ∧
      Effect.log .error ∈ (download_and_convert_to_mp3 env url output_path filename).2) ∧
    (∀ yt e, env.newYouTube url = .ok yt → env.streamsFirst yt = .error e →
      (download_and_convert_to_mp3 env url output_path filename).1 = none ∧
      Effect.log .error ∈ (download_and_convert_to_mp3 env url output_path filename).2) ∧
    (∀ yt s e, env.newYouTube url = .ok yt → env.streamsFirst yt = .ok (some s) →
      env.mkdir output_path = .error e →
      (download_and_convert_to_mp3 env url output_path filename).1 = none ∧
      Effect.log .error ∈ (download_and_convert_to_mp3 env url output_path filename).2) ∧
    (∀ yt s e, env.newYouTube url = .ok yt → env.streamsFirst yt = .ok (some s) →
      env.mkdir output_path = .ok () → env.download s output_path = .error e →
      (download_and_convert_to_mp3 env url output_path filename).1 = none ∧
      Effect.log .error ∈ (download_and_convert_to_mp3 env url output_path filename).2) ∧
    (∀ yt s d e, env.newYouTube url = .ok yt → env.streamsFirst yt = .ok (some s) →
      env.mkdir output_path = .ok () → env.download s output_path = .ok d →
      env.audioFileClip d = .error e →
      (download_and_convert_to_mp3 env url output_path filename).1 = none ∧
      Effect.log .error ∈ (download_and_convert_to_mp3 env url output_path filename).2) ∧
    (∀ yt s d c e, env.newYouTube url = .ok yt → env.streamsFirst yt = .ok (some s) →
      env.mkdir output_path = .ok () → env.download s output_path = .ok d →
      env.audioFileClip d = .ok c →
      env.writeAudiofile c (pathJoin output_path (filename ++ ".mp4")) = .error e →
      (download_and_convert_to_mp3 env url output_path filename).1 = none ∧
      Effect.log .error ∈ (download_and_convert_to_mp3 env url output_path filename).2) ∧
    (∀ yt s d c e, env.newYouTube url = .ok yt → env.streamsFirst yt = .ok (some s) →
      env.mkdir output_path = .ok () → env.download s output_path = .ok d →
      env.audioFileClip d = .ok c →
      env.writeAudiofile c (pathJoin output_path (filename ++ ".mp4")) = .ok () →
      env.closeClip c = .error e →
      (download_and_convert_to_mp3 env url output_path filename).1 = none ∧
      Effect.log .error ∈ (download_and_convert_to_mp3 env url output_path filename).2) ∧
    (∀ yt s d c e, env.newYouTube url = .ok yt → env.streamsFirst yt = .ok (some s) →
      env.mkdir output_path = .ok () → env.download s output_path = .ok d →
      env.audioFileClip d = .ok c →
      env.writeAudiofile c (pathJoin output_path (filename ++ ".mp4")) = .ok () →
      env.closeClip c = .ok () → pySuffix d ≠ ".mp3" → env.remove d = .error e →
      (download_and_convert_to_mp3 env url output_path filename).1 = none ∧
      Effect.log .error ∈ (download_and_convert_to_mp3 env url output_path filename).2) := by
  refine ⟨?_, ?_, ?_, ?_, ?_, ?_, ?_, ?_⟩
  · intro e h1
    simp [download_and_convert_to_mp3, h1]
  · intro yt e h1 h2
    simp [download_and_convert_to_mp3, h1, h2]
  · intro yt s e h1 h2 h3
    simp [download_and_convert_to_mp3, h1, h2, h3]
  · intro yt s e h1 h2 h3 h4
    simp [download_and_convert_to_mp3, h1, h2, h3, h4]
  · intro yt s d e h1 h2 h3 h4 h5
    simp [download_and_convert_to_mp3, h1, h2, h3, h4, h5]
  · intro yt s d c e h1 h2 h3 h4 h5 h6
    simp [download_and_convert_to_mp3, h1, h2, h3, h4, h5, h6]
  · intro yt s d c e h1 h2 h3 h4 h5 h6 h7
    simp [download_and_convert_to_mp3, h1, h2, h3, h4, h5, h6, h7]
  · intro yt s d c e h1 h2 h3 h4 h5 h6 h7 h8 h9
    simp [download_and_convert_to_mp3, h1, h2, h3, h4, h5, h6, h7, h8, h9]

/-- Witness for C4 with an environment whose first call raises. -/
theorem download_mp3_catches_exceptions_witness :
    (download_and_convert_to_mp3 failYtEnv "https://youtu.be/x" "output" "test").1 = none ∧
    Effect.log .error ∈
      (download_and_convert_to_mp3 failYtEnv "https://youtu.be/x" "output" "test").2 :=
  (download_mp3_catches_exceptions failYtEnv "https://youtu.be/x" "output" "test").1
    (.exn "HTTP Error 400") rfl
